import Mathlib

/-!
# PoseCoreEngine — verification of the core pipeline

Shallow embedding of the core components of the push-up analysis pipeline:

* `src/scripts/counter.py` — `PushupCounter`, a two-phase state machine that
  counts repetitions from the elbow angle (and an optional arm/torso
  alignment difference).
* `src/scripts/filters.py` — `OneEuroFilter`, an adaptive low-pass filter.
* `src/scripts/geometry.py` — pure geometric helpers (`angle`).
* `src/scripts/scorer.py` — `RepScorer`, the per-repetition quality scorer.

Python floats are idealized as exact rationals (`ℚ`) where the code is pure
arithmetic and comparisons, and as real numbers (`ℝ`) where the code uses
`sqrt`, `arccos` or `atan2`.  Python `int` is `ℤ`.  Decimal literals such as
`0.08` denote the exact decimal value.
-/

namespace PoseCore

/-! ## Repetition state machine (`src/scripts/counter.py`)

The Python class stores configuration and mutable state on `self`; the
structure below carries the same fields.  `state` is the `"up"`/`"down"`
string, `reps`/`down_frames`/`up_frames` are Python ints.
-/

inductive Phase where
  | up
  | down
deriving DecidableEq

structure PushupCounter where
  state : Phase
  reps : ℤ
  down_frames : ℤ
  up_frames : ℤ
  down_angle : ℚ
  angle_tolerance : ℚ
  up_th : ℚ
  parallel_th : ℚ
  min_down_frames : ℤ
  min_up_frames : ℤ
deriving DecidableEq

/-- `PushupCounter.__init__`: stores the configuration and initializes
`state = "up"`, `reps = 0`, `down_frames = 0`, `up_frames = 0`. -/
def PushupCounter.init (down_angle angle_tolerance up_th parallel_th : ℚ)
    (min_down_frames min_up_frames : ℤ) : PushupCounter :=
  { state := .up, reps := 0, down_frames := 0, up_frames := 0,
    down_angle := down_angle, angle_tolerance := angle_tolerance,
    up_th := up_th, parallel_th := parallel_th,
    min_down_frames := min_down_frames, min_up_frames := min_up_frames }

/-- `PushupCounter.__init__` viewed as a fallible constructor.  The Python
body consists only of attribute assignments and contains no `raise` and no
validation of its arguments, so construction always succeeds: the result is
always `.ok` of the stored configuration. -/
def PushupCounter.initE (down_angle angle_tolerance up_th parallel_th : ℚ)
    (min_down_frames min_up_frames : ℤ) : Except String PushupCounter :=
  .ok (PushupCounter.init down_angle angle_tolerance up_th parallel_th
    min_down_frames min_up_frames)

/-- The `in_down_position` flag computed at the top of `PushupCounter.update`:
the elbow angle is within `angle_tolerance` of `down_angle`, and, when an
arm/torso difference is supplied (strict mode), that difference is at most
`parallel_th`. -/
def PushupCounter.inDownPosition (s : PushupCounter) (elbow_angle : ℚ)
    (arm_back_angle_diff : Option ℚ) : Bool :=
  let in_down_angle_range : Bool := decide (|elbow_angle - s.down_angle| ≤ s.angle_tolerance)
  match arm_back_angle_diff with
  | some d => in_down_angle_range && decide (d ≤ s.parallel_th)
  | none => in_down_angle_range

/-- `PushupCounter.update`: one frame of the state machine.  Returns the new
state and the `rep_completed` flag. -/
def PushupCounter.update (s : PushupCounter) (elbow_angle : ℚ)
    (arm_back_angle_diff : Option ℚ) : PushupCounter × Bool :=
  if s.inDownPosition elbow_angle arm_back_angle_diff then
    let s1 := { s with down_frames := s.down_frames + 1, up_frames := 0 }
    if s1.state = Phase.up ∧ s1.down_frames ≥ s1.min_down_frames then
      ({ s1 with state := Phase.down }, false)
    else
      (s1, false)
  else if elbow_angle > s.up_th then
    let s1 := { s with up_frames := s.up_frames + 1, down_frames := 0 }
    if s1.state = Phase.down ∧ s1.up_frames ≥ s1.min_up_frames then
      ({ s1 with state := Phase.up, reps := s1.reps + 1 }, true)
    else
      (s1, false)
  else
    ({ s with down_frames := max 0 (s.down_frames - 1),
              up_frames := max 0 (s.up_frames - 1) }, false)

/-- `PushupCounter.reset`: sets `state = "up"`, `reps = 0`,
`down_frames = 0`, `up_frames = 0` (and leaves the configuration alone). -/
def PushupCounter.reset (s : PushupCounter) : PushupCounter :=
  { s with state := .up, reps := 0, down_frames := 0, up_frames := 0 }

/-- Feed a list of `(elbow_angle, arm_back_angle_diff)` inputs through
`update`, returning the final state and the number of `True`
(`rep_completed`) results. -/
def runCounter (s : PushupCounter) : List (ℚ × Option ℚ) → PushupCounter × ℕ
  | [] => (s, 0)
  | i :: rest =>
    let step := s.update i.1 i.2
    let t := runCounter step.1 rest
    (t.1, (if step.2 then 1 else 0) + t.2)

/-- The up-position branch condition of `update`: the down test failed and
the elbow angle exceeds `up_th`. -/
def PushupCounter.isUpInput (s : PushupCounter) (elbow_angle : ℚ)
    (arm_back_angle_diff : Option ℚ) : Bool :=
  !s.inDownPosition elbow_angle arm_back_angle_diff && decide (elbow_angle > s.up_th)

/-- The transition-zone branch condition of `update`: neither the down test
nor the up test holds. -/
def PushupCounter.isTransitionInput (s : PushupCounter) (elbow_angle : ℚ)
    (arm_back_angle_diff : Option ℚ) : Bool :=
  !s.inDownPosition elbow_angle arm_back_angle_diff && !(decide (elbow_angle > s.up_th))

/-- States of the machine reachable from some freshly constructed counter by
`update` and `reset` calls. -/
inductive CounterReachable : PushupCounter → Prop where
  | init : ∀ da tol uth pth mdf muf,
      CounterReachable (PushupCounter.init da tol uth pth mdf muf)
  | update : ∀ s e d, CounterReachable s → CounterReachable (s.update e d).1
  | reset : ∀ s, CounterReachable s → CounterReachable s.reset

/-! ## One Euro filter (`src/scripts/filters.py`)

`x_prev`, `dx_prev`, `t_prev` start as `None` and are set on the first call;
`Option ℚ` models that.  `math.pi` is the IEEE-754 double closest to π; its
exact rational value is `884279719003555 / 2^48`. -/

/-- The exact rational value of the Python float constant `math.pi`. -/
def piFloat : ℚ := 884279719003555 / 281474976710656

structure OneEuroFilter where
  freq : ℚ
  min_cutoff : ℚ
  beta : ℚ
  d_cutoff : ℚ
  x_prev : Option ℚ
  dx_prev : Option ℚ
  t_prev : Option ℚ
deriving DecidableEq

/-- `OneEuroFilter.__init__`: stores the configuration; the three state
fields start uninitialized (`None`). -/
def OneEuroFilter.init (freq min_cutoff beta d_cutoff : ℚ) : OneEuroFilter :=
  { freq := freq, min_cutoff := min_cutoff, beta := beta, d_cutoff := d_cutoff,
    x_prev := none, dx_prev := none, t_prev := none }

/-- `OneEuroFilter.__init__` viewed as a fallible constructor.  The Python
body only converts the arguments with `float(...)` and assigns attributes;
it contains no `raise` and no validation, so for numeric arguments it always
succeeds. -/
def OneEuroFilter.initE (freq min_cutoff beta d_cutoff : ℚ) : Except String OneEuroFilter :=
  .ok (OneEuroFilter.init freq min_cutoff beta d_cutoff)

/-- `OneEuroFilter._alpha`: smoothing factor from cutoff frequency,
`tau = 1/(2·pi·cutoff)`, `te = 1/freq`, `alpha = 1/(1 + tau/te)`. -/
def OneEuroFilter.alphaOf (cutoff freq : ℚ) : ℚ :=
  let tau := 1 / (2 * piFloat * cutoff)
  let te := 1 / freq
  1 / (1 + tau / te)

/-- `OneEuroFilter._exp_smooth`: `a*x + (1-a)*x_prev`. -/
def expSmooth (a x x_prev : ℚ) : ℚ := a * x + (1 - a) * x_prev

/-- The time delta used on a non-first call:
`dt = max(1e-6, now - self.t_prev)` (line 70 of `filters.py`). -/
def dtUsed (t_prev now : ℚ) : ℚ := max (1 / 1000000) (now - t_prev)

/-- The instantaneous frequency estimated on a non-first call:
`freq = 1.0 / dt`. -/
def freqUsed (t_prev now : ℚ) : ℚ := 1 / dtUsed t_prev now

/-- The smoothed derivative `dx_hat` computed on a non-first call:
`dx = (x - x_prev) * freq` smoothed with `_alpha(d_cutoff, freq)`.
When `t_prev` is set the Python code has also set `x_prev` and `dx_prev`;
`getD 0` supplies the (unreachable) default. -/
def OneEuroFilter.dxHatUsed (s : OneEuroFilter) (x t_prev now : ℚ) : ℚ :=
  expSmooth (OneEuroFilter.alphaOf s.d_cutoff (freqUsed t_prev now))
    ((x - s.x_prev.getD 0) * freqUsed t_prev now) (s.dx_prev.getD 0)

/-- The adaptive cutoff computed on a non-first call:
`cutoff = min_cutoff + beta * abs(dx_hat)`. -/
def OneEuroFilter.cutoffUsed (s : OneEuroFilter) (x t_prev now : ℚ) : ℚ :=
  s.min_cutoff + s.beta * |s.dxHatUsed x t_prev now|

/-- `OneEuroFilter.__call__` with an explicit timestamp: returns the
filtered value and the updated filter state. -/
def OneEuroFilter.call (s : OneEuroFilter) (x now : ℚ) : ℚ × OneEuroFilter :=
  match s.t_prev with
  | none =>
    (x, { s with t_prev := some now, x_prev := some x, dx_prev := some 0 })
  | some tp =>
    let dx_hat := s.dxHatUsed x tp now
    let x_hat := expSmooth (OneEuroFilter.alphaOf (s.cutoffUsed x tp now) (freqUsed tp now))
      x (s.x_prev.getD 0)
    (x_hat, { s with x_prev := some x_hat, dx_prev := some dx_hat, t_prev := some now })

/-! ## Basic lemmas -/

/-- Running a list of inputs through `update` preserves reachability. -/
lemma counterReachable_runCounter (l : List (ℚ × Option ℚ)) (s : PushupCounter)
    (h : CounterReachable s) : CounterReachable (runCounter s l).1 := by
  induction l generalizing s with
  | nil => exact h
  | cons i rest ih =>
    simpa [runCounter] using ih (s.update i.1 i.2).1 (CounterReachable.update s i.1 i.2 h)

/-! ## Claim C2 — constructor validation -/

/-- Claim C2 counterexample: constructing with invalid configuration does
not fail.  `OneEuroFilter(min_cutoff=0)` and `PushupCounter` with
non-positive frame thresholds both construct successfully (the Python
`__init__` bodies contain no validation and no `raise`). -/
theorem ctor_accepts_invalid_config :
    OneEuroFilter.initE 120 0 0 1 = Except.ok (OneEuroFilter.init 120 0 0 1) ∧
    PushupCounter.initE 90 15 140 20 0 (-1) =
      Except.ok (PushupCounter.init 90 15 140 20 0 (-1)) :=
  ⟨rfl, rfl⟩

/-- Claim C2 (amended): construction never fails, for any configuration
values — valid or not.  Both constructors simply store their arguments;
invalid configuration is not detected at construction time. -/
theorem ctor_always_succeeds :
    (∀ freq min_cutoff beta d_cutoff : ℚ,
      OneEuroFilter.initE freq min_cutoff beta d_cutoff =
        Except.ok (OneEuroFilter.init freq min_cutoff beta d_cutoff)) ∧
    (∀ da tol uth pth : ℚ, ∀ mdf muf : ℤ,
      PushupCounter.initE da tol uth pth mdf muf =
        Except.ok (PushupCounter.init da tol uth pth mdf muf)) :=
  ⟨fun _ _ _ _ => rfl, fun _ _ _ _ _ _ => rfl⟩

/-! ## Claim C3 — reset semantics -/

/-- Claim C3 counterexample: a reachable state with one completed
repetition.  `reset` sets its cumulative `reps` count from 1 back to 0, so
the count is not left unchanged. -/
theorem reset_clears_reps_cex :
    CounterReachable (runCounter (PushupCounter.init 90 15 140 20 3 3)
      [(90, none), (90, none), (90, none), (150, none), (150, none), (150, none)]).1 ∧
    (runCounter (PushupCounter.init 90 15 140 20 3 3)
      [(90, none), (90, none), (90, none), (150, none), (150, none), (150, none)]).1.reps = 1 ∧
    ((runCounter (PushupCounter.init 90 15 140 20 3 3)
      [(90, none), (90, none), (90, none), (150, none), (150, none), (150, none)]).1).reset.reps
      = 0 := by
  refine ⟨counterReachable_runCounter _ _ (CounterReachable.init 90 15 140 20 3 3), ?_, ?_⟩ <;>
    norm_num [runCounter, PushupCounter.update, PushupCounter.inDownPosition,
      PushupCounter.init, PushupCounter.reset]

/-- Claim C3 (amended): for every state, `reset` reinitializes the phase to
`Up`, both consecutive-frame counters to 0, *and also clears the cumulative
repetition count to 0*, while leaving the configuration unchanged. -/
theorem reset_reinitializes :
    ∀ s : PushupCounter, s.reset.state = Phase.up ∧ s.reset.reps = 0 ∧
      s.reset.down_frames = 0 ∧ s.reset.up_frames = 0 ∧
      s.reset.down_angle = s.down_angle ∧ s.reset.angle_tolerance = s.angle_tolerance ∧
      s.reset.up_th = s.up_th ∧ s.reset.parallel_th = s.parallel_th ∧
      s.reset.min_down_frames = s.min_down_frames ∧
      s.reset.min_up_frames = s.min_up_frames :=
  fun _ => ⟨rfl, rfl, rfl, rfl, rfl, rfl, rfl, rfl, rfl, rfl⟩

/-! ## Claim C9 — filter cold start -/

/-- Claim C9: on the first call for an axis (`t_prev` unset), the filter
returns the raw value unchanged and the updated state stores the raw value
as the previous filtered value, derivative 0, and the call timestamp. -/
theorem filter_first_call_identity (s : OneEuroFilter) (x now : ℚ)
    (h : s.t_prev = none) :
    s.call x now =
      (x, { s with x_prev := some x, dx_prev := some 0, t_prev := some now }) := by
  simp only [OneEuroFilter.call, h]

/-- Claim C9 witness: first call on a freshly constructed filter. -/
theorem filter_first_call_identity_witness :
    (OneEuroFilter.init 120 1 0 1).call 7 3 =
      (7, { OneEuroFilter.init 120 1 0 1 with
            x_prev := some 7, dx_prev := some 0, t_prev := some 3 }) :=
  filter_first_call_identity (OneEuroFilter.init 120 1 0 1) 7 3 rfl

/-! ## Claim C6 — clamped time delta, no division by zero -/

/-- Claim C6: on every call after the first (any `now`, including
`now ≤ t_prev`), the time delta is clamped to at least `1e-6`, hence
positive; the estimated frequency is positive (finite); and, for a valid
configuration (positive `min_cutoff` and `d_cutoff`, non-negative `beta`),
every divisor appearing in the update (`2·pi·cutoff` inside `_alpha`, and
`1 + tau/te`) is positive, so no division by zero occurs and the state
advances to the supplied timestamp. -/
theorem filter_dt_clamped_no_div_zero (s : OneEuroFilter) (x now tp : ℚ)
    (hprev : s.t_prev = some tp) (hmc : 0 < s.min_cutoff) (hb : 0 ≤ s.beta)
    (hdc : 0 < s.d_cutoff) :
    (1 / 1000000 : ℚ) ≤ dtUsed tp now ∧ 0 < dtUsed tp now ∧ 0 < freqUsed tp now ∧
    0 < s.cutoffUsed x tp now ∧
    0 < 2 * piFloat * s.d_cutoff ∧
    0 < 2 * piFloat * s.cutoffUsed x tp now ∧
    0 < 1 + (1 / (2 * piFloat * s.d_cutoff)) / (1 / freqUsed tp now) ∧
    0 < 1 + (1 / (2 * piFloat * s.cutoffUsed x tp now)) / (1 / freqUsed tp now) ∧
    (s.call x now).2.t_prev = some now := by
  have hdtle : (1 / 1000000 : ℚ) ≤ dtUsed tp now := le_max_left _ _
  have hdt : (0 : ℚ) < dtUsed tp now := lt_of_lt_of_le (by norm_num) hdtle
  have hfreq : 0 < freqUsed tp now := one_div_pos.mpr hdt
  have hpi : (0 : ℚ) < piFloat := by norm_num [piFloat]
  have hcut : 0 < s.cutoffUsed x tp now :=
    add_pos_of_pos_of_nonneg hmc (mul_nonneg hb (abs_nonneg _))
  have hden1 : (0 : ℚ) < 2 * piFloat * s.d_cutoff := by positivity
  have hden2 : (0 : ℚ) < 2 * piFloat * s.cutoffUsed x tp now := by positivity
  have hq1 : (0 : ℚ) < (1 / (2 * piFloat * s.d_cutoff)) / (1 / freqUsed tp now) :=
    div_pos (one_div_pos.mpr hden1) (one_div_pos.mpr hfreq)
  have hq2 : (0 : ℚ) < (1 / (2 * piFloat * s.cutoffUsed x tp now)) / (1 / freqUsed tp now) :=
    div_pos (one_div_pos.mpr hden2) (one_div_pos.mpr hfreq)
  refine ⟨hdtle, hdt, hfreq, hcut, hden1, hden2, by linarith, by linarith, ?_⟩
  simp only [OneEuroFilter.call, hprev]

/-- Claim C6 witness: a second call with a duplicate timestamp
(`now = t_prev = 5`) on a default-configured filter. -/
theorem filter_dt_clamped_no_div_zero_witness :
    (1 / 1000000 : ℚ) ≤ dtUsed 5 5 ∧ 0 < dtUsed 5 5 ∧ 0 < freqUsed 5 5 ∧
    0 < OneEuroFilter.cutoffUsed
        { OneEuroFilter.init 120 1 0 1 with
          x_prev := some 2, dx_prev := some 0, t_prev := some 5 } 2 5 5 ∧
    0 < 2 * piFloat * ({ OneEuroFilter.init 120 1 0 1 with
          x_prev := some 2, dx_prev := some 0, t_prev := some 5 } : OneEuroFilter).d_cutoff ∧
    0 < 2 * piFloat * OneEuroFilter.cutoffUsed
        { OneEuroFilter.init 120 1 0 1 with
          x_prev := some 2, dx_prev := some 0, t_prev := some 5 } 2 5 5 ∧
    0 < 1 + (1 / (2 * piFloat * ({ OneEuroFilter.init 120 1 0 1 with
          x_prev := some 2, dx_prev := some 0, t_prev := some 5 } : OneEuroFilter).d_cutoff)) /
        (1 / freqUsed 5 5) ∧
    0 < 1 + (1 / (2 * piFloat * OneEuroFilter.cutoffUsed
        { OneEuroFilter.init 120 1 0 1 with
          x_prev := some 2, dx_prev := some 0, t_prev := some 5 } 2 5 5)) /
        (1 / freqUsed 5 5) ∧
    (OneEuroFilter.call
        { OneEuroFilter.init 120 1 0 1 with
          x_prev := some 2, dx_prev := some 0, t_prev := some 5 } 2 5).2.t_prev = some 5 :=
  filter_dt_clamped_no_div_zero
    { OneEuroFilter.init 120 1 0 1 with
      x_prev := some 2, dx_prev := some 0, t_prev := some 5 } 2 5 5 rfl
    (by norm_num [OneEuroFilter.init]) (by norm_num [OneEuroFilter.init])
    (by norm_num [OneEuroFilter.init])

/-! ## Claim C10 — counter invariant -/

/-- Claim C10: in every reachable state, both consecutive-frame counters are
non-negative and at least one of them is zero. -/
theorem counter_frames_invariant (s : PushupCounter) (h : CounterReachable s) :
    0 ≤ s.down_frames ∧ 0 ≤ s.up_frames ∧
      (s.down_frames = 0 ∨ s.up_frames = 0) := by
  induction h with
  | init da tol uth pth mdf muf => exact ⟨le_refl 0, le_refl 0, Or.inl rfl⟩
  | update s e d hs ih =>
    obtain ⟨h1, h2, h3⟩ := ih
    dsimp only [PushupCounter.update]
    split_ifs <;> dsimp only <;> omega
  | reset s hs ih => exact ⟨le_refl 0, le_refl 0, Or.inl rfl⟩

/-- Claim C10 witness: the invariant at a concrete reachable state (the
freshly constructed default counter). -/
theorem counter_frames_invariant_witness :
    0 ≤ (PushupCounter.init 90 15 140 20 3 3).down_frames ∧
    0 ≤ (PushupCounter.init 90 15 140 20 3 3).up_frames ∧
    ((PushupCounter.init 90 15 140 20 3 3).down_frames = 0 ∨
      (PushupCounter.init 90 15 140 20 3 3).up_frames = 0) :=
  counter_frames_invariant _ (CounterReachable.init 90 15 140 20 3 3)

/-! ## Claim C4 — hysteresis of the repetition machine

Single-step characterizations of `update` on each branch, and run lemmas for
uniform stretches of down-qualifying / up-qualifying frames. -/

lemma isUpInput_eq_true (s : PushupCounter) (e : ℚ) (d : Option ℚ) :
    s.isUpInput e d = true ↔ s.inDownPosition e d = false ∧ e > s.up_th := by
  simp [PushupCounter.isUpInput]

lemma isTransitionInput_eq_true (s : PushupCounter) (e : ℚ) (d : Option ℚ) :
    s.isTransitionInput e d = true ↔ s.inDownPosition e d = false ∧ ¬e > s.up_th := by
  simp [PushupCounter.isTransitionInput]

/-- `update` on a down-qualifying frame. -/
lemma update_down_of (s : PushupCounter) (e : ℚ) (d : Option ℚ)
    (h : s.inDownPosition e d = true) :
    s.update e d =
      (if s.state = Phase.up ∧ s.down_frames + 1 ≥ s.min_down_frames then
        { s with state := Phase.down, down_frames := s.down_frames + 1, up_frames := 0 }
      else
        { s with down_frames := s.down_frames + 1, up_frames := 0 }, false) := by
  dsimp only [PushupCounter.update]
  rw [h, if_pos rfl]
  split_ifs <;> rfl

/-- `update` on an up-qualifying frame. -/
lemma update_up_of (s : PushupCounter) (e : ℚ) (d : Option ℚ)
    (h1 : s.inDownPosition e d = false) (h2 : e > s.up_th) :
    s.update e d =
      (if s.state = Phase.down ∧ s.up_frames + 1 ≥ s.min_up_frames then
        ({ s with state := Phase.up, reps := s.reps + 1,
                  up_frames := s.up_frames + 1, down_frames := 0 }, true)
      else
        ({ s with up_frames := s.up_frames + 1, down_frames := 0 }, false)) := by
  dsimp only [PushupCounter.update]
  rw [h1, if_neg (by simp), if_pos h2]

/-- `update` on a transition-zone frame: both counters decay by one (never
below zero) and nothing else changes. -/
lemma update_transition_of (s : PushupCounter) (e : ℚ) (d : Option ℚ)
    (h1 : s.inDownPosition e d = false) (h2 : ¬e > s.up_th) :
    s.update e d =
      ({ s with down_frames := max 0 (s.down_frames - 1),
                up_frames := max 0 (s.up_frames - 1) }, false) := by
  dsimp only [PushupCounter.update]
  rw [h1, if_neg (by simp), if_neg h2]

lemma runCounter_append (s : PushupCounter) (xs ys : List (ℚ × Option ℚ)) :
    runCounter s (xs ++ ys) =
      ((runCounter (runCounter s xs).1 ys).1,
        (runCounter s xs).2 + (runCounter (runCounter s xs).1 ys).2) := by
  induction xs generalizing s with
  | nil => simp [runCounter]
  | cons i rest ih => simp [runCounter, ih, Nat.add_assoc]

lemma runCounter_single (s : PushupCounter) (p : ℚ × Option ℚ) :
    runCounter s [p] =
      ((s.update p.1 p.2).1, if (s.update p.1 p.2).2 then 1 else 0) := by
  simp [runCounter]

/-- Running a stretch of down-qualifying frames too short to reach
`min_down_frames` from an `Up` state: the down counter accumulates, the up
counter is zeroed (unless the stretch is empty), no phase change and no
completed rep. -/
lemma runCounter_down_run (xs : List (ℚ × Option ℚ)) :
    ∀ s : PushupCounter, s.state = Phase.up →
      (∀ p ∈ xs, s.inDownPosition p.1 p.2 = true) →
      s.down_frames + xs.length < s.min_down_frames →
      runCounter s xs =
        ({ s with down_frames := s.down_frames + xs.length,
                  up_frames := if xs.isEmpty then s.up_frames else 0 }, 0) := by
  induction xs with
  | nil => intro s hst _ _; simp [runCounter]
  | cons p rest ih =>
    intro s hst hall hlt
    have hp : s.inDownPosition p.1 p.2 = true := hall p (by simp)
    have hlt1 : s.down_frames + 1 + rest.length < s.min_down_frames := by
      simp only [List.length_cons] at hlt
      push_cast at hlt ⊢
      omega
    have hstep := update_down_of s p.1 p.2 hp
    rw [if_neg (by rintro ⟨-, hb⟩; omega)] at hstep
    simp only [runCounter, hstep]
    rw [ih { s with down_frames := s.down_frames + 1, up_frames := 0 } hst
      (fun q hq => hall q (List.mem_cons_of_mem p hq)) hlt1]
    have harith : s.down_frames + 1 + (rest.length : ℤ) =
        s.down_frames + ((rest.length : ℤ) + 1) := by ring
    simp [List.length_cons, harith]

/-- Running a stretch of up-qualifying frames too short to reach
`min_up_frames` from a `Down` state: the up counter accumulates, the down
counter is zeroed (unless the stretch is empty), no phase change and no
completed rep. -/
lemma runCounter_up_run (xs : List (ℚ × Option ℚ)) :
    ∀ s : PushupCounter, s.state = Phase.down →
      (∀ p ∈ xs, s.isUpInput p.1 p.2 = true) →
      s.up_frames + xs.length < s.min_up_frames →
      runCounter s xs =
        ({ s with up_frames := s.up_frames + xs.length,
                  down_frames := if xs.isEmpty then s.down_frames else 0 }, 0) := by
  induction xs with
  | nil => intro s hst _ _; simp [runCounter]
  | cons p rest ih =>
    intro s hst hall hlt
    have hp := (isUpInput_eq_true s p.1 p.2).mp (hall p (by simp))
    have hlt1 : s.up_frames + 1 + rest.length < s.min_up_frames := by
      simp only [List.length_cons] at hlt
      push_cast at hlt ⊢
      omega
    have hstep := update_up_of s p.1 p.2 hp.1 hp.2
    rw [if_neg (by rintro ⟨-, hb⟩; omega)] at hstep
    simp only [runCounter, hstep]
    rw [ih { s with up_frames := s.up_frames + 1, down_frames := 0 } hst
      (fun q hq => hall q (List.mem_cons_of_mem p hq)) hlt1]
    have harith : s.up_frames + 1 + (rest.length : ℤ) =
        s.up_frames + ((rest.length : ℤ) + 1) := by ring
    simp [List.length_cons, harith]

/-- From an `Up` state, a stretch of down-qualifying frames too short to
reach `min_down_frames`, followed by one transition-zone frame, leaves the
phase `Up`. -/
lemma hysteresis_short_down (s0 : PushupCounter) (xs : List (ℚ × Option ℚ))
    (z : ℚ × Option ℚ) (hst : s0.state = Phase.up)
    (hxs : ∀ p ∈ xs, s0.inDownPosition p.1 p.2 = true)
    (hz : s0.isTransitionInput z.1 z.2 = true)
    (hlt : s0.down_frames + xs.length < s0.min_down_frames) :
    (runCounter s0 (xs ++ [z])).1.state = Phase.up := by
  have hz' := (isTransitionInput_eq_true s0 z.1 z.2).mp hz
  rw [runCounter_append, runCounter_down_run xs s0 hst hxs hlt]
  dsimp only
  rw [runCounter_single,
    update_transition_of
      { s0 with down_frames := s0.down_frames + (xs.length : ℤ),
                up_frames := if xs.isEmpty then s0.up_frames else 0 }
      z.1 z.2 hz'.1 hz'.2]
  exact hst

/-- From an `Up` state with zeroed counters, `min_down_frames` consecutive
down-qualifying frames followed by `min_up_frames` consecutive up-qualifying
frames complete exactly one repetition: one `True` signal, `reps`
incremented to 1, final phase `Up`. -/
lemma hysteresis_full_rep (s0 : PushupCounter) (ds1 us1 : List (ℚ × Option ℚ))
    (dl ul : ℚ × Option ℚ)
    (hst : s0.state = Phase.up) (hdf : s0.down_frames = 0) (huf : s0.up_frames = 0)
    (hreps : s0.reps = 0)
    (hlen1 : (ds1.length : ℤ) = s0.min_down_frames - 1)
    (hlen2 : (us1.length : ℤ) = s0.min_up_frames - 1)
    (hds : ∀ p ∈ ds1, s0.inDownPosition p.1 p.2 = true)
    (hdl : s0.inDownPosition dl.1 dl.2 = true)
    (hus : ∀ p ∈ us1, s0.isUpInput p.1 p.2 = true)
    (hul : s0.isUpInput ul.1 ul.2 = true) :
    (runCounter s0 (ds1 ++ [dl] ++ (us1 ++ [ul]))).2 = 1 ∧
    (runCounter s0 (ds1 ++ [dl] ++ (us1 ++ [ul]))).1.reps = 1 ∧
    (runCounter s0 (ds1 ++ [dl] ++ (us1 ++ [ul]))).1.state = Phase.up := by
  have hul' := (isUpInput_eq_true s0 ul.1 ul.2).mp hul
  have hlt1 : s0.down_frames + (ds1.length : ℤ) < s0.min_down_frames := by omega
  have e1 := runCounter_down_run ds1 s0 hst hds hlt1
  have e2 := update_down_of
      { s0 with down_frames := s0.down_frames + (ds1.length : ℤ),
                up_frames := if ds1.isEmpty then s0.up_frames else 0 }
      dl.1 dl.2 hdl
  rw [if_pos (And.intro hst (show s0.down_frames + (ds1.length : ℤ) + 1 ≥
    s0.min_down_frames by omega))] at e2
  have e3 := runCounter_up_run us1
      { s0 with state := Phase.down,
                down_frames := s0.down_frames + (ds1.length : ℤ) + 1,
                up_frames := 0 }
      rfl hus
      (show (0 : ℤ) + (us1.length : ℤ) < s0.min_up_frames by omega)
  have e4 := update_up_of
      { s0 with state := Phase.down,
                down_frames := if us1.isEmpty then s0.down_frames + (ds1.length : ℤ) + 1 else 0,
                up_frames := (0 : ℤ) + (us1.length : ℤ) }
      ul.1 ul.2 hul'.1 hul'.2
  rw [if_pos (And.intro (Eq.refl Phase.down) (show (0 : ℤ) + (us1.length : ℤ) + 1 ≥
    s0.min_up_frames by omega))] at e4
  rw [runCounter_append s0 (ds1 ++ [dl]) (us1 ++ [ul]), runCounter_append s0 ds1 [dl], e1]
  dsimp only
  rw [runCounter_single, e2]
  dsimp only
  rw [runCounter_append _ us1 [ul], e3]
  dsimp only
  rw [runCounter_single, e4]
  dsimp only
  refine ⟨by simp, ?_, rfl⟩
  show s0.reps + 1 = 1
  omega

/-- Claim C4: starting from a freshly constructed counter with positive
`min_down_frames` and `min_up_frames`: (a) `min_down_frames − 1`
down-qualifying frames followed by one transition-zone frame leave the
phase `Up`; (b) `min_down_frames` down-qualifying frames followed by
`min_up_frames` up-qualifying frames produce exactly one
repetition-completed signal and a cumulative count of 1. -/
theorem pushup_hysteresis (da tol uth pth : ℚ) (m n : ℤ) (hm : 0 < m) (hn : 0 < n) :
    (∀ (xs : List (ℚ × Option ℚ)) (z : ℚ × Option ℚ),
      (xs.length : ℤ) = m - 1 →
      (∀ p ∈ xs, (PushupCounter.init da tol uth pth m n).inDownPosition p.1 p.2 = true) →
      (PushupCounter.init da tol uth pth m n).isTransitionInput z.1 z.2 = true →
      (runCounter (PushupCounter.init da tol uth pth m n) (xs ++ [z])).1.state = Phase.up) ∧
    (∀ ds us : List (ℚ × Option ℚ),
      (ds.length : ℤ) = m → (us.length : ℤ) = n →
      (∀ p ∈ ds, (PushupCounter.init da tol uth pth m n).inDownPosition p.1 p.2 = true) →
      (∀ p ∈ us, (PushupCounter.init da tol uth pth m n).isUpInput p.1 p.2 = true) →
      (runCounter (PushupCounter.init da tol uth pth m n) (ds ++ us)).2 = 1 ∧
      (runCounter (PushupCounter.init da tol uth pth m n) (ds ++ us)).1.reps = 1) := by
  constructor
  · intro xs z hlen hxs hz
    exact hysteresis_short_down _ xs z rfl hxs hz
      (show (0 : ℤ) + (xs.length : ℤ) < m by omega)
  · intro ds us hdlen hulen hds hus
    rcases List.eq_nil_or_concat ds with rfl | ⟨ds1, dl, rfl⟩
    · simp at hdlen; omega
    rcases List.eq_nil_or_concat us with rfl | ⟨us1, ul, rfl⟩
    · simp at hulen; omega
    simp only [List.concat_eq_append] at hdlen hulen hds hus ⊢
    have hlen1 : (ds1.length : ℤ) = m - 1 := by
      simp only [List.length_append, List.length_cons, List.length_nil] at hdlen
      push_cast at hdlen ⊢; omega
    have hlen2 : (us1.length : ℤ) = n - 1 := by
      simp only [List.length_append, List.length_cons, List.length_nil] at hulen
      push_cast at hulen ⊢; omega
    have h := hysteresis_full_rep (PushupCounter.init da tol uth pth m n) ds1 us1 dl ul
      rfl rfl rfl rfl hlen1 hlen2
      (fun p hp => hds p (List.mem_append_left [dl] hp))
      (hds dl (List.mem_append_right ds1 (List.mem_singleton_self dl)))
      (fun p hp => hus p (List.mem_append_left [ul] hp))
      (hus ul (List.mem_append_right us1 (List.mem_singleton_self ul)))
    exact ⟨h.1, h.2.1⟩

/-- Claim C4 witness: default configuration (`min_down_frames =
min_up_frames = 3`), two down frames at 90° then a 120° transition frame
stay `Up`; three down frames at 90° then three up frames at 150° complete
exactly one repetition. -/
theorem pushup_hysteresis_witness :
    (runCounter (PushupCounter.init 90 15 140 20 3 3)
      ([((90 : ℚ), (none : Option ℚ)), (90, none)] ++ [(120, none)])).1.state = Phase.up ∧
    (runCounter (PushupCounter.init 90 15 140 20 3 3)
      ([((90 : ℚ), (none : Option ℚ)), (90, none), (90, none)] ++
        [(150, none), (150, none), (150, none)])).2 = 1 ∧
    (runCounter (PushupCounter.init 90 15 140 20 3 3)
      ([((90 : ℚ), (none : Option ℚ)), (90, none), (90, none)] ++
        [(150, none), (150, none), (150, none)])).1.reps = 1 := by
  have h := pushup_hysteresis 90 15 140 20 3 3 (by norm_num) (by norm_num)
  refine ⟨h.1 [(90, none), (90, none)] (120, none) (by norm_num) ?_ ?_, ?_⟩
  · intro p hp
    fin_cases hp <;>
      norm_num [PushupCounter.inDownPosition, PushupCounter.init]
  · norm_num [PushupCounter.isTransitionInput, PushupCounter.inDownPosition,
      PushupCounter.init]
  · exact h.2 [(90, none), (90, none), (90, none)] [(150, none), (150, none), (150, none)]
      (by norm_num) (by norm_num)
      (by intro p hp; fin_cases hp <;>
        norm_num [PushupCounter.inDownPosition, PushupCounter.init])
      (by intro p hp; fin_cases hp <;>
        norm_num [PushupCounter.isUpInput, PushupCounter.inDownPosition, PushupCounter.init])

/-! ## Geometry (`src/scripts/geometry.py`)

Points are pairs of reals.  `np.linalg.norm` is the Euclidean norm,
`np.degrees x = x * 180 / pi`, `np.arccos` is `Real.arccos`. -/

/-- Componentwise difference of 2D points (numpy `a - b`). -/
def sub2 (p q : ℝ × ℝ) : ℝ × ℝ := (p.1 - q.1, p.2 - q.2)

/-- `np.linalg.norm` of a 2D vector. -/
noncomputable def norm2 (v : ℝ × ℝ) : ℝ := Real.sqrt (v.1 ^ 2 + v.2 ^ 2)

/-- `np.dot` of 2D vectors. -/
def dot2 (u v : ℝ × ℝ) : ℝ := u.1 * v.1 + u.2 * v.2

/-- `angle(a, b, c)`: the angle at vertex `b` in degrees.  If either ray has
norm below `1e-9` the function returns `0.0`; otherwise the normalized dot
product is clamped to `[-1, 1]` before `arccos`, and the result is converted
to degrees. -/
noncomputable def angle (a b c : ℝ × ℝ) : ℝ :=
  if norm2 (sub2 a b) < 1e-9 ∨ norm2 (sub2 c b) < 1e-9 then 0
  else
    Real.arccos (max (-1) (min 1
      (dot2 (sub2 a b) (sub2 c b) / (norm2 (sub2 a b) * norm2 (sub2 c b))))) *
      (180 / Real.pi)

/-! ## Claim C8 — angle correctness -/

/-- Claim C8: `angle` always lies in `[0, 180]` degrees; a right angle at
the origin gives 90, opposite rays give 180, and a degenerate vertex
(`a = b`, near-zero ray) gives 0. -/
theorem angle_correct :
    (∀ a b c : ℝ × ℝ, 0 ≤ angle a b c ∧ angle a b c ≤ 180) ∧
    angle (1, 0) (0, 0) (0, 1) = 90 ∧
    angle (-1, 0) (0, 0) (1, 0) = 180 ∧
    (∀ p q : ℝ × ℝ, angle p p q = 0) := by
  have hpi := Real.pi_pos
  refine ⟨?_, ?_, ?_, ?_⟩
  · intro a b c
    unfold angle
    split_ifs with h
    · norm_num
    · constructor
      · exact mul_nonneg (Real.arccos_nonneg _) (by positivity)
      · have h1 := Real.arccos_le_pi (max (-1) (min 1
          (dot2 (sub2 a b) (sub2 c b) / (norm2 (sub2 a b) * norm2 (sub2 c b)))))
        have h2 : Real.arccos (max (-1) (min 1
              (dot2 (sub2 a b) (sub2 c b) / (norm2 (sub2 a b) * norm2 (sub2 c b)))))
              * (180 / Real.pi) ≤ Real.pi * (180 / Real.pi) :=
          mul_le_mul_of_nonneg_right h1 (by positivity)
        have h3 : Real.pi * (180 / Real.pi) = 180 := by field_simp
        linarith
  · have hba : sub2 ((1 : ℝ), (0 : ℝ)) (0, 0) = (1, 0) := by simp [sub2]
    have hbc : sub2 ((0 : ℝ), (1 : ℝ)) (0, 0) = (0, 1) := by simp [sub2]
    have hn1 : norm2 ((1 : ℝ), (0 : ℝ)) = 1 := by
      rw [norm2]; norm_num
    have hn2 : norm2 ((0 : ℝ), (1 : ℝ)) = 1 := by
      rw [norm2]; norm_num
    rw [angle, hba, hbc, hn1, hn2, if_neg (by norm_num)]
    rw [show dot2 ((1 : ℝ), (0 : ℝ)) ((0 : ℝ), (1 : ℝ)) = 0 by norm_num [dot2]]
    norm_num [Real.arccos_zero]
    field_simp
    ring
  · have hba : sub2 ((-1 : ℝ), (0 : ℝ)) (0, 0) = (-1, 0) := by simp [sub2]
    have hbc : sub2 ((1 : ℝ), (0 : ℝ)) (0, 0) = (1, 0) := by simp [sub2]
    have hn1 : norm2 ((-1 : ℝ), (0 : ℝ)) = 1 := by
      rw [norm2]; norm_num
    have hn2 : norm2 ((1 : ℝ), (0 : ℝ)) = 1 := by
      rw [norm2]; norm_num
    rw [angle, hba, hbc, hn1, hn2, if_neg (by norm_num)]
    rw [show dot2 ((-1 : ℝ), (0 : ℝ)) ((1 : ℝ), (0 : ℝ)) = -1 by norm_num [dot2]]
    norm_num [Real.arccos_neg_one]
    field_simp
  · intro p q
    have hba : sub2 p p = (0, 0) := by simp [sub2]
    have hn : norm2 ((0 : ℝ), (0 : ℝ)) = 0 := by
      rw [norm2]; norm_num
    rw [angle, hba, hn, if_pos (Or.inl (by norm_num))]

/-! ## Quality scorer (`src/scripts/scorer.py`)

The scorer's frame buffer is a list of per-frame metric records; `finalize`
computes the six sub-scores and the weighted total. -/

/-- One entry of the scorer's frame buffer (the dict passed to
`add_frame`). -/
structure FrameMetrics where
  elbowL : ℝ
  elbowR : ℝ
  shoulder_y : ℝ
  hip_y : ℝ
  line_dev : ℝ

/-- `np.interp(x, [x0, x1], [y0, y1])`, following numpy's `arr_interp` /
`binary_search_with_guess` C implementation for a two-point table: the
out-of-range checks are `x > xp[last]` (returns `fp[last]`) first, then
`x < xp[0]` (returns `fp[0]`); otherwise a linear search locates the
interval and the result is the linear interpolant.  For increasing `x0 <
x1` this is clamped linear interpolation.  numpy documents that `xp` must
be increasing; for a decreasing table (as the scorer's ROM bottom range
`[110, 70]`) this algorithm degenerates to a step function: `y1` whenever
`x > x1`, else `y0`. -/
noncomputable def npInterp (x x0 x1 y0 y1 : ℝ) : ℝ :=
  if x > x1 then y1
  else if x < x0 then y0
  else if x < x1 then
    (if x = x0 then y0 else (y1 - y0) / (x1 - x0) * (x - x0) + y0)
  else y1

/-- `arr.min()` of a (nonempty) numpy series; 0 on the empty list, which the
scorer never reaches (`finalize` returns early on an empty buffer). -/
noncomputable def listMin : List ℝ → ℝ
  | [] => 0
  | x :: xs => xs.foldl min x

/-- `arr.max()` of a (nonempty) numpy series; 0 on the empty list (never
reached). -/
noncomputable def listMax : List ℝ → ℝ
  | [] => 0
  | x :: xs => xs.foldl max x

/-- `np.mean`. -/
noncomputable def listMean (l : List ℝ) : ℝ := l.sum / l.length

/-- `np.std` (population standard deviation): the square root of the mean
squared deviation from the mean. -/
noncomputable def listStd (l : List ℝ) : ℝ :=
  Real.sqrt (listMean (l.map (fun x => (x - listMean l) ^ 2)))

/-- `np.percentile(a, q)` with the default linear interpolation: sort
ascending, take position `q/100 * (n-1)`, and interpolate linearly between
the two neighboring order statistics. -/
noncomputable def percentileLinear (q : ℝ) (l : List ℝ) : ℝ :=
  let s := List.insertionSort (fun a b => a ≤ b) l
  let pos := q / 100 * ((s.length : ℝ) - 1)
  let i : ℕ := ⌊pos⌋₊
  let j : ℕ := min (i + 1) (s.length - 1)
  s.getD i 0 + (pos - (i : ℕ)) * (s.getD j 0 - s.getD i 0)

/-- `np.argmin`: index of the first occurrence of the minimum value. -/
noncomputable def argminIdx : List ℝ → ℕ
  | [] => 0
  | [_] => 0
  | x :: y :: rest =>
    if x ≤ listMin (y :: rest) then 0 else argminIdx (y :: rest) + 1

/-- `np.clip(v, lo, hi)`. -/
noncomputable def npClip (v lo hi : ℝ) : ℝ := min (max v lo) hi

/-- Python `round(x, ndigits)` idealized over the reals: round
`x * 10^ndigits` to the nearest integer and scale back.  (Python uses
banker's rounding at exact halves; no claim depends on tie behavior.) -/
noncomputable def pyRound (ndigits : ℕ) (x : ℝ) : ℝ :=
  (round (x * 10 ^ ndigits) : ℤ) / 10 ^ ndigits

/-- `arr[-1]`: the last element of a (nonempty) series. -/
def lastD (l : List ℝ) : ℝ := l.getD (l.length - 1) 0

/-- The `breakdown` dict produced by `RepScorer.finalize` for a nonempty
buffer: six sub-scores clipped to `[0, 100]` plus the two measured
durations. -/
structure ScoreBreakdown where
  ROM : ℝ
  Depth : ℝ
  BodyLine : ℝ
  Tempo : ℝ
  Stability : ℝ
  Symmetry : ℝ
  down_seconds : ℝ
  up_seconds : ℝ

/-- The result dict of `RepScorer.finalize`: overall score, breakdown
(`none` models the empty dict `{}` of the empty-buffer early return), and
notes. -/
structure RepResult where
  score : ℝ
  breakdown : Option ScoreBreakdown
  notes : List String

/-- `np.interp(v, [110, 70], [0, 100])` — the ROM bottom sub-score applied
to the session minimum elbow angle (scorer.py line 73). -/
noncomputable def romBottomScore (v : ℝ) : ℝ := npInterp v 110 70 0 100

/-- `np.interp(v, [120, 160], [0, 100])` — the ROM top sub-score applied to
the session maximum elbow angle (scorer.py line 75). -/
noncomputable def romTopScore (v : ℝ) : ℝ := npInterp v 120 160 0 100

/-- The breakdown computed by `RepScorer.finalize` on a nonempty buffer,
following scorer.py lines 64–121. -/
noncomputable def RepScorer.breakdownOf (frames : List FrameMetrics)
    (target_down_s target_up_s fps : ℝ) : ScoreBreakdown :=
  let eL := frames.map FrameMetrics.elbowL
  let eR := frames.map FrameMetrics.elbowR
  let hip_y := frames.map FrameMetrics.hip_y
  let sh_y := frames.map FrameMetrics.shoulder_y
  let line_dev := frames.map FrameMetrics.line_dev
  let rom_bottom_score := romBottomScore (min (listMin eL) (listMin eR))
  let rom_top_score := romTopScore (max (listMax eL) (listMax eR))
  let ROM := 0.6 * rom_bottom_score + 0.4 * rom_top_score
  let depth_series := List.zipWith (fun a b => a - b) sh_y hip_y
  let depth_score := npInterp (listMax depth_series) 0 0.08 0 100
  let bodyline_score := npInterp (100 - percentileLinear 90 line_dev) 60 100 0 100
  let mean_elbow := List.zipWith (fun a b => (a + b) / 2) eL eR
  let min_idx := argminIdx mean_elbow
  let down_s := ((max min_idx 1 : ℕ) : ℝ) / fps
  let up_s := ((max (frames.length - 1 - min_idx) 1 : ℕ) : ℝ) / fps
  let tempo_down := 100 - min (|down_s - target_down_s| / max 1e-6 target_down_s) 1 * 100
  let tempo_up := 100 - min (|up_s - target_up_s| / max 1e-6 target_up_s) 1 * 100
  let tempo_score := 0.6 * tempo_down + 0.4 * tempo_up
  let stability_score := 100 - npInterp (listStd hip_y) 0 0.03 0 100
  let sym_bottom := |eL.getD min_idx 0 - eR.getD min_idx 0|
  let sym_top := |lastD eL - lastD eR|
  let symmetry_score := 100 - npInterp ((sym_bottom + sym_top) / 2) 0 15 0 100
  { ROM := npClip ROM 0 100,
    Depth := npClip depth_score 0 100,
    BodyLine := npClip bodyline_score 0 100,
    Tempo := npClip tempo_score 0 100,
    Stability := npClip stability_score 0 100,
    Symmetry := npClip symmetry_score 0 100,
    down_seconds := pyRound 2 down_s,
    up_seconds := pyRound 2 up_s }

/-- The weighted total of scorer.py lines 124–131. -/
noncomputable def finalScoreOf (b : ScoreBreakdown) : ℝ :=
  0.35 * b.ROM + 0.15 * b.Depth + 0.20 * b.BodyLine +
    0.10 * b.Tempo + 0.10 * b.Stability + 0.10 * b.Symmetry

/-- `RepScorer.finalize`: early return for an empty buffer, otherwise the
breakdown and the rounded weighted score. -/
noncomputable def RepScorer.finalize (frames : List FrameMetrics)
    (target_down_s target_up_s fps : ℝ) : RepResult :=
  if frames.isEmpty then
    { score := 0, breakdown := none, notes := ["No frames captured"] }
  else
    { score := pyRound 1 (finalScoreOf (RepScorer.breakdownOf frames target_down_s target_up_s fps)),
      breakdown := some (RepScorer.breakdownOf frames target_down_s target_up_s fps),
      notes := [] }

/-! ## Claim C7 — empty buffer -/

/-- Claim C7: `finalize` on an empty frame buffer returns score `0.0`, an
empty breakdown and the note `"No frames captured"`; the function is total,
so no exception is raised. -/
theorem finalize_empty_buffer :
    ∀ target_down_s target_up_s fps : ℝ,
      RepScorer.finalize [] target_down_s target_up_s fps =
        { score := 0, breakdown := none, notes := ["No frames captured"] } :=
  fun _ _ _ => rfl

/-! ## Claim C5 — all scores in [0, 100] -/

lemma npClip01_mem (v : ℝ) : 0 ≤ npClip v 0 100 ∧ npClip v 0 100 ≤ 100 :=
  ⟨le_min (le_max_right _ _) (by norm_num), min_le_right _ _⟩

lemma finalScoreOf_mem (b : ScoreBreakdown)
    (h1 : 0 ≤ b.ROM ∧ b.ROM ≤ 100) (h2 : 0 ≤ b.Depth ∧ b.Depth ≤ 100)
    (h3 : 0 ≤ b.BodyLine ∧ b.BodyLine ≤ 100) (h4 : 0 ≤ b.Tempo ∧ b.Tempo ≤ 100)
    (h5 : 0 ≤ b.Stability ∧ b.Stability ≤ 100)
    (h6 : 0 ≤ b.Symmetry ∧ b.Symmetry ≤ 100) :
    0 ≤ finalScoreOf b ∧ finalScoreOf b ≤ 100 := by
  unfold finalScoreOf
  obtain ⟨a1, b1⟩ := h1; obtain ⟨a2, b2⟩ := h2; obtain ⟨a3, b3⟩ := h3
  obtain ⟨a4, b4⟩ := h4; obtain ⟨a5, b5⟩ := h5; obtain ⟨a6, b6⟩ := h6
  constructor <;> linarith

lemma pyRound1_mem (x : ℝ) (h0 : 0 ≤ x) (h1 : x ≤ 100) :
    0 ≤ pyRound 1 x ∧ pyRound 1 x ≤ 100 := by
  unfold pyRound
  have hr0 : (0 : ℤ) ≤ round (x * 10 ^ 1) := by
    rw [round_eq]
    exact Int.floor_nonneg.mpr (by norm_num; linarith)
  have hr1 : round (x * 10 ^ 1) ≤ 1000 := by
    rw [round_eq]
    have hm : ⌊x * 10 ^ 1 + 1 / 2⌋ ≤ ⌊(1000 : ℝ) + 1 / 2⌋ :=
      Int.floor_mono (by norm_num; linarith)
    have he : ⌊(1000 : ℝ) + 1 / 2⌋ = 1000 := by
      rw [Int.floor_eq_iff]
      norm_num
    omega
  constructor
  · exact div_nonneg (by exact_mod_cast hr0) (by norm_num)
  · rw [div_le_iff (by norm_num : (0 : ℝ) < 10 ^ 1)]
    calc ((round (x * 10 ^ 1) : ℤ) : ℝ) ≤ 1000 := by exact_mod_cast hr1
      _ = 100 * 10 ^ 1 := by norm_num

/-- Claim C5: for every nonempty frame buffer and positive targets and fps,
`finalize` produces a breakdown whose six sub-scores all lie in `[0, 100]`,
and a final weighted score in `[0, 100]`. -/
theorem finalize_scores_bounded (frames : List FrameMetrics) (td tu fps : ℝ)
    (h : frames ≠ []) (hfps : 0 < fps) (htd : 0 < td) (htu : 0 < tu) :
    (RepScorer.finalize frames td tu fps).breakdown =
      some (RepScorer.breakdownOf frames td tu fps) ∧
    (0 ≤ (RepScorer.breakdownOf frames td tu fps).ROM ∧
      (RepScorer.breakdownOf frames td tu fps).ROM ≤ 100) ∧
    (0 ≤ (RepScorer.breakdownOf frames td tu fps).Depth ∧
      (RepScorer.breakdownOf frames td tu fps).Depth ≤ 100) ∧
    (0 ≤ (RepScorer.breakdownOf frames td tu fps).BodyLine ∧
      (RepScorer.breakdownOf frames td tu fps).BodyLine ≤ 100) ∧
    (0 ≤ (RepScorer.breakdownOf frames td tu fps).Tempo ∧
      (RepScorer.breakdownOf frames td tu fps).Tempo ≤ 100) ∧
    (0 ≤ (RepScorer.breakdownOf frames td tu fps).Stability ∧
      (RepScorer.breakdownOf frames td tu fps).Stability ≤ 100) ∧
    (0 ≤ (RepScorer.breakdownOf frames td tu fps).Symmetry ∧
      (RepScorer.breakdownOf frames td tu fps).Symmetry ≤ 100) ∧
    0 ≤ (RepScorer.finalize frames td tu fps).score ∧
    (RepScorer.finalize frames td tu fps).score ≤ 100 := by
  have hne : frames.isEmpty = false := by
    cases frames with
    | nil => exact absurd rfl h
    | cons a l => rfl
  have hROM : 0 ≤ (RepScorer.breakdownOf frames td tu fps).ROM ∧
      (RepScorer.breakdownOf frames td tu fps).ROM ≤ 100 := npClip01_mem _
  have hDepth : 0 ≤ (RepScorer.breakdownOf frames td tu fps).Depth ∧
      (RepScorer.breakdownOf frames td tu fps).Depth ≤ 100 := npClip01_mem _
  have hBody : 0 ≤ (RepScorer.breakdownOf frames td tu fps).BodyLine ∧
      (RepScorer.breakdownOf frames td tu fps).BodyLine ≤ 100 := npClip01_mem _
  have hTempo : 0 ≤ (RepScorer.breakdownOf frames td tu fps).Tempo ∧
      (RepScorer.breakdownOf frames td tu fps).Tempo ≤ 100 := npClip01_mem _
  have hStab : 0 ≤ (RepScorer.breakdownOf frames td tu fps).Stability ∧
      (RepScorer.breakdownOf frames td tu fps).Stability ≤ 100 := npClip01_mem _
  have hSym : 0 ≤ (RepScorer.breakdownOf frames td tu fps).Symmetry ∧
      (RepScorer.breakdownOf frames td tu fps).Symmetry ≤ 100 := npClip01_mem _
  have hfinal := finalScoreOf_mem _ hROM hDepth hBody hTempo hStab hSym
  have hscore := pyRound1_mem _ hfinal.1 hfinal.2
  refine ⟨?_, hROM, hDepth, hBody, hTempo, hStab, hSym, ?_, ?_⟩ <;>
    simp only [RepScorer.finalize, hne, Bool.false_eq_true, if_false]
  · exact hscore.1
  · exact hscore.2

/-- Claim C5 witness: a one-frame buffer with arbitrary realistic values. -/
theorem finalize_scores_bounded_witness :
    (RepScorer.finalize [⟨90, 95, 0.5, 0.6, 5⟩] 2 1 30).breakdown =
      some (RepScorer.breakdownOf [⟨90, 95, 0.5, 0.6, 5⟩] 2 1 30) ∧
    (0 ≤ (RepScorer.breakdownOf [⟨90, 95, 0.5, 0.6, 5⟩] 2 1 30).ROM ∧
      (RepScorer.breakdownOf [⟨90, 95, 0.5, 0.6, 5⟩] 2 1 30).ROM ≤ 100) ∧
    (0 ≤ (RepScorer.breakdownOf [⟨90, 95, 0.5, 0.6, 5⟩] 2 1 30).Depth ∧
      (RepScorer.breakdownOf [⟨90, 95, 0.5, 0.6, 5⟩] 2 1 30).Depth ≤ 100) ∧
    (0 ≤ (RepScorer.breakdownOf [⟨90, 95, 0.5, 0.6, 5⟩] 2 1 30).BodyLine ∧
      (RepScorer.breakdownOf [⟨90, 95, 0.5, 0.6, 5⟩] 2 1 30).BodyLine ≤ 100) ∧
    (0 ≤ (RepScorer.breakdownOf [⟨90, 95, 0.5, 0.6, 5⟩] 2 1 30).Tempo ∧
      (RepScorer.breakdownOf [⟨90, 95, 0.5, 0.6, 5⟩] 2 1 30).Tempo ≤ 100) ∧
    (0 ≤ (RepScorer.breakdownOf [⟨90, 95, 0.5, 0.6, 5⟩] 2 1 30).Stability ∧
      (RepScorer.breakdownOf [⟨90, 95, 0.5, 0.6, 5⟩] 2 1 30).Stability ≤ 100) ∧
    (0 ≤ (RepScorer.breakdownOf [⟨90, 95, 0.5, 0.6, 5⟩] 2 1 30).Symmetry ∧
      (RepScorer.breakdownOf [⟨90, 95, 0.5, 0.6, 5⟩] 2 1 30).Symmetry ≤ 100) ∧
    0 ≤ (RepScorer.finalize [⟨90, 95, 0.5, 0.6, 5⟩] 2 1 30).score ∧
    (RepScorer.finalize [⟨90, 95, 0.5, 0.6, 5⟩] 2 1 30).score ≤ 100 :=
  finalize_scores_bounded [⟨90, 95, 0.5, 0.6, 5⟩] 2 1 30 (by simp)
    (by norm_num) (by norm_num) (by norm_num)

/-! ## Claim C1 — ROM bottom score -/

/-- Modelled from the spec: the Range-of-Motion bottom score as the spec
describes it — linear interpolation of the minimum elbow angle over the
input range 110° ↦ 0, 70° ↦ 100, clamped at the bounds outside that
range. -/
noncomputable def specRomBottomScore (v : ℝ) : ℝ :=
  if v ≥ 110 then 0
  else if v ≤ 70 then 100
  else (110 - v) / (110 - 70) * 100

/-- Claim C1: the code's ROM bottom score is **not** the spec's linear
interpolation.  `np.interp` is called with the *decreasing* xp table
`[110, 70]`, for which numpy's algorithm degenerates to a step function:
100 for any angle above 70°, 0 otherwise.  At the spec's own example of a
90° minimum elbow angle the code yields 100, not 50; at 60° (deeper than
the full-score bound, which the spec scores 100) the code yields 0. -/
theorem rom_bottom_step_not_linear :
    romBottomScore 90 = 100 ∧ specRomBottomScore 90 = 50 ∧
    romBottomScore 60 = 0 ∧ specRomBottomScore 60 = 100 ∧
    romBottomScore 109 = 100 ∧ specRomBottomScore 109 = 2.5 := by
  norm_num [romBottomScore, specRomBottomScore, npInterp]

end PoseCore
